import Mathlib

/-!
Shallow embedding of `src/app_rlc_toolkit_pro.py`, the R-L-C transmission-line
toolkit.  The Python source is a Streamlit script; its computational core is a
set of closed-form real-arithmetic formulas.  Each definition below embeds the
arithmetic of one section of the script, over `ℝ`, keeping the source's
variable names and the exact order of operations.  Python's `**(1/3)` is real
exponentiation and is embedded as `Real.rpow`; `math.sqrt` as `Real.sqrt`;
`math.log` as `Real.log`.  The script performs no input validation and defines
no error values, so every embedded function is total on `ℝ`.
-/

namespace RLCToolkit

/-- Permeability of free space (H/m): source line 37, `MU_0 = 4 * math.pi * 1e-7`. -/
noncomputable def MU_0 : ℝ := 4 * Real.pi * 1e-7

/-- Permittivity of free space (F/m): source line 38, `EPSILON_0 = 8.854e-12`. -/
def EPSILON_0 : ℝ := 8.854e-12

/-- Conductor material: the two keys of the source's `TEMP_CONST` dictionary. -/
inductive Material
  | Copper
  | Aluminum
deriving DecidableEq

/-- Temperature-constant lookup: source line 39,
`TEMP_CONST = {"Copper": 234.5, "Aluminum": 228.1}`. -/
def TEMP_CONST : Material → ℝ
  | .Copper => 234.5
  | .Aluminum => 228.1

/-- Temperature-corrected resistivity: source line 72,
`rho2 = rho1 * ((temp2 + temp_const) / (temp1 + temp_const))`. -/
noncomputable def rho2 (rho1 temp1 temp2 temp_const : ℝ) : ℝ :=
  rho1 * ((temp2 + temp_const) / (temp1 + temp_const))

/-- Result of the resistance tab: corrected resistivity, per-km and total
resistance (source lines 72-74). -/
structure ResistanceResult where
  rho2 : ℝ
  R_per_km : ℝ
  R_total : ℝ

/-- Resistance computation, source lines 67-74:
`temp_const = TEMP_CONST[material]`, `area_m2 = area_mm2 * 1e-6`,
`rho2 = rho1 * ((temp2 + temp_const) / (temp1 + temp_const))`,
`R_per_km = (rho2 / area_m2) * 1000`, `R_total = R_per_km * length_km`. -/
noncomputable def computeResistance (material : Material)
    (rho1 area_mm2 length_km temp1 temp2 : ℝ) : ResistanceResult :=
  let temp_const := TEMP_CONST material
  let area_m2 := area_mm2 * 1e-6
  let ρ2 := rho2 rho1 temp1 temp2 temp_const
  let R_per_km := (ρ2 / area_m2) * 1000
  let R_total := R_per_km * length_km
  ⟨ρ2, R_per_km, R_total⟩

/-- Euclidean distance between two conductor centres, as computed inline at
source lines 125-127 and 183-185: `math.sqrt((x1 - x2)**2 + (y1 - y2)**2)`. -/
noncomputable def pairDist (x1 y1 x2 y2 : ℝ) : ℝ :=
  Real.sqrt ((x1 - x2) ^ 2 + (y1 - y2) ^ 2)

/-- Line geometry selected by the "System Type" radio control: single-phase
with a spacing, or three-phase with the six phase coordinates. -/
inductive LineGeometry
  | single (spacing_m : ℝ)
  | threePhase (xA yA xB yB xC yC : ℝ)

/-- Geometric-mean distance, source lines 111-128: the spacing itself for
single-phase; `(Dab * Dbc * Dca)**(1/3)` for three-phase. -/
noncomputable def GMD : LineGeometry → ℝ
  | .single spacing_m => spacing_m
  | .threePhase xA yA xB yB xC yC =>
      let Dab := pairDist xA yA xB yB
      let Dbc := pairDist xB yB xC yC
      let Dca := pairDist xC yC xA yA
      (Dab * Dbc * Dca) ^ ((1 : ℝ) / 3)

/-- Result of the inductance tab: resolved GMR and GMD, per-km and total
inductance (source lines 105, 128, 133-135). -/
structure InductanceResult where
  gmr : ℝ
  GMD : ℝ
  L_per_km : ℝ
  L_total : ℝ

/-- Inductance computation, source lines 100-135:
`r_m = radius_mm / 1000`,
`gmr = 0.7788 * r_m if user_gmr == 0 else user_gmr`,
`length_m = length_km * 1000`, GMD from the geometry,
`L_per_m = (MU_0 / (2 * math.pi)) * math.log(GMD / gmr)`,
`L_per_km = L_per_m * 1000`, `L_total = L_per_m * length_m`. -/
noncomputable def computeInductance (radius_mm user_gmr length_km : ℝ)
    (geom : LineGeometry) : InductanceResult :=
  let r_m := radius_mm / 1000
  let gmr := if user_gmr = 0 then 0.7788 * r_m else user_gmr
  let length_m := length_km * 1000
  let gmd := GMD geom
  let L_per_m := (MU_0 / (2 * Real.pi)) * Real.log (gmd / gmr)
  ⟨gmr, gmd, L_per_m * 1000, L_per_m * length_m⟩

/-- Result of the capacitance tab: resolved GMD, effective distance, per-km
and total capacitance (source lines 170-171, 186, 193, 198-200). -/
structure CapacitanceResult where
  GMD : ℝ
  D_eq : ℝ
  C_per_km : ℝ
  C_total : ℝ

/-- Capacitance computation, source lines 161-200:
`r_m_c = radius_mm_c / 1000`, `length_m_c = length_km_c * 1000`;
single-phase: `D_eq = math.sqrt(spacing_c**2 + (2 * height_m)**2)`,
`GMD = spacing_c`; three-phase: GMD from the coordinates,
`Dp = (2*yA * 2*yB * 2*yC)**(1/3)`, `D_eq = math.sqrt(GMD * Dp)`; then
`C_per_m = (2 * math.pi * EPSILON_0) / math.log(D_eq / r_m_c)`,
`C_per_km = C_per_m * 1000`, `C_total = C_per_m * length_m_c`. -/
noncomputable def computeCapacitance (radius_mm_c height_m length_km_c : ℝ)
    (geom : LineGeometry) : CapacitanceResult :=
  let r_m_c := radius_mm_c / 1000
  let length_m_c := length_km_c * 1000
  match geom with
  | .single spacing_c =>
      let D_eq := Real.sqrt (spacing_c ^ 2 + (2 * height_m) ^ 2)
      let gmd := spacing_c
      let C_per_m := (2 * Real.pi * EPSILON_0) / Real.log (D_eq / r_m_c)
      ⟨gmd, D_eq, C_per_m * 1000, C_per_m * length_m_c⟩
  | .threePhase xA yA xB yB xC yC =>
      let Dab := pairDist xA yA xB yB
      let Dbc := pairDist xB yB xC yC
      let Dca := pairDist xC yC xA yA
      let gmd := (Dab * Dbc * Dca) ^ ((1 : ℝ) / 3)
      let Dp := ((2 * yA) * (2 * yB) * (2 * yC)) ^ ((1 : ℝ) / 3)
      let D_eq := Real.sqrt (gmd * Dp)
      let C_per_m := (2 * Real.pi * EPSILON_0) / Real.log (D_eq / r_m_c)
      ⟨gmd, D_eq, C_per_m * 1000, C_per_m * length_m_c⟩

/-- Convenience constructor: a three-phase geometry from three coordinate
pairs, as entered in the six coordinate fields. -/
def mkThree (p q r : ℝ × ℝ) : LineGeometry :=
  .threePhase p.1 p.2 q.1 q.2 r.1 r.2

/-!
Theorems for the claims.
-/

/-- C1: for every material constant θ and all inputs with T₁+θ > 0, T₂+θ > 0
and ρ₁ > 0, the corrected resistivity ρ₂ = ρ₁·(T₂+θ)/(T₁+θ) satisfies:
ρ₂ > ρ₁ when T₂ > T₁, ρ₂ = ρ₁ when T₂ = T₁, and ρ₂ is strictly increasing in
the operating temperature T₂ for fixed ρ₁, T₁, θ. -/
theorem rho2_temperature_monotone (rho1 temp1 temp2 temp2' θ : ℝ)
    (hρ : 0 < rho1) (h1 : 0 < temp1 + θ) (_h2 : 0 < temp2 + θ)
    (_h2' : 0 < temp2' + θ) :
    (temp1 < temp2 → rho1 < rho2 rho1 temp1 temp2 θ) ∧
    (temp2 = temp1 → rho2 rho1 temp1 temp2 θ = rho1) ∧
    (temp2 < temp2' → rho2 rho1 temp1 temp2 θ < rho2 rho1 temp1 temp2' θ) := by
  unfold rho2
  refine ⟨fun hlt => ?_, fun heq => ?_, fun hlt => ?_⟩
  · have hfrac : 1 < (temp2 + θ) / (temp1 + θ) :=
      (one_lt_div h1).mpr (by linarith)
    calc rho1 = rho1 * 1 := (mul_one rho1).symm
      _ < rho1 * ((temp2 + θ) / (temp1 + θ)) :=
          (mul_lt_mul_left hρ).mpr hfrac
  · rw [heq, div_self (ne_of_gt h1), mul_one]
  · have hdiv : (temp2 + θ) / (temp1 + θ) < (temp2' + θ) / (temp1 + θ) :=
      (div_lt_div_iff_of_pos_right h1).mpr (by linarith)
    exact (mul_lt_mul_left hρ).mpr hdiv

/-- Witness for C1 at ρ₁ = 1.724e-8, T₁ = 20, T₂ = 50, T₂' = 60, θ = 234.5. -/
theorem rho2_temperature_monotone_witness :
    (0 : ℝ) < 1.724e-8 ∧ (0 : ℝ) < 20 + 234.5 ∧ (0 : ℝ) < 50 + 234.5 ∧
    (0 : ℝ) < 60 + 234.5 ∧
    (((20 : ℝ) < 50 → 1.724e-8 < rho2 1.724e-8 20 50 234.5) ∧
     ((50 : ℝ) = 20 → rho2 1.724e-8 20 50 234.5 = 1.724e-8) ∧
     ((50 : ℝ) < 60 → rho2 1.724e-8 20 50 234.5 < rho2 1.724e-8 20 60 234.5)) :=
  ⟨by norm_num, by norm_num, by norm_num, by norm_num,
    rho2_temperature_monotone 1.724e-8 20 50 60 234.5
      (by norm_num) (by norm_num) (by norm_num) (by norm_num)⟩

/-- C6: for every resistance input and every positive line length, the total
resistance equals the per-km resistance multiplied by the length in km. -/
theorem R_total_eq_R_per_km_mul_length (material : Material)
    (rho1 area_mm2 length_km temp1 temp2 : ℝ) (_hlen : 0 < length_km) :
    (computeResistance material rho1 area_mm2 length_km temp1 temp2).R_total =
      (computeResistance material rho1 area_mm2 length_km temp1 temp2).R_per_km
        * length_km :=
  rfl

/-- Witness for C6 at the spec's round-trip scenario inputs. -/
theorem R_total_eq_R_per_km_mul_length_witness :
    (0 : ℝ) < 10 ∧
    (computeResistance .Copper 1.724e-8 300 10 20 50).R_total =
      (computeResistance .Copper 1.724e-8 300 10 20 50).R_per_km * 10 :=
  ⟨by norm_num,
    R_total_eq_R_per_km_mul_length .Copper 1.724e-8 300 10 20 50 (by norm_num)⟩

/-- C10: whenever the caller supplies a positive GMR, the inductance result
does not depend on the conductor radius: two calls that differ only in the
radius argument return identical results. -/
theorem inductance_radius_independent (radius_mm radius_mm' user_gmr length_km : ℝ)
    (geom : LineGeometry) (hgmr : 0 < user_gmr) :
    computeInductance radius_mm user_gmr length_km geom =
      computeInductance radius_mm' user_gmr length_km geom := by
  simp only [computeInductance, if_neg (ne_of_gt hgmr)]

/-- Witness for C10 with radii 10 mm and 25 mm, GMR 0.05 m, single-phase
spacing 2 m, length 10 km. -/
theorem inductance_radius_independent_witness :
    (0 : ℝ) < 0.05 ∧
    computeInductance 10 0.05 10 (.single 2) =
      computeInductance 25 0.05 10 (.single 2) :=
  ⟨by norm_num,
    inductance_radius_independent 10 25 0.05 10 (.single 2) (by norm_num)⟩

/-- C5: for every positive radius, calling the inductance computation with
the sentinel GMR 0 (auto) gives exactly the same result as supplying
GMR = 0.7788 · r, where r = radius_mm / 1000 is the radius in metres. -/
theorem gmr_auto_derivation (radius_mm length_km : ℝ) (geom : LineGeometry)
    (hr : 0 < radius_mm) :
    computeInductance radius_mm 0 length_km geom =
      computeInductance radius_mm (0.7788 * (radius_mm / 1000)) length_km geom := by
  have hne : 0.7788 * (radius_mm / 1000) ≠ 0 := ne_of_gt (by positivity)
  simp only [computeInductance, if_neg hne, ite_true, eq_self_iff_true]

/-- Witness for C5 at radius 10 mm, single-phase spacing 2 m, length 10 km. -/
theorem gmr_auto_derivation_witness :
    (0 : ℝ) < 10 ∧
    computeInductance 10 0 10 (.single 2) =
      computeInductance 10 (0.7788 * (10 / 1000)) 10 (.single 2) :=
  ⟨by norm_num, gmr_auto_derivation 10 10 (.single 2) (by norm_num)⟩

/-- C2 (failing input): with material Copper, ρ₁ = 2, area = −1 mm²,
length 1 km, T₁ = T₂ = 0, the code performs no validation: it returns the
negative resistance −2·10⁹ Ω/km (and −2·10⁹ Ω total) instead of failing
with an InvalidInput error.  No error value exists anywhere in the code. -/
theorem computeResistance_negative_area_returns_value :
    (computeResistance .Copper 2 (-1) 1 0 0).R_per_km = -2e9 ∧
    (computeResistance .Copper 2 (-1) 1 0 0).R_total = -2e9 := by
  constructor <;> norm_num [computeResistance, rho2, TEMP_CONST]

/-- C3 (failing input): with user-supplied GMR 2 m and single-phase spacing
2 m, the log argument GMD/GMR equals 1, and the code silently returns the
non-physical inductance 0 (per km and total) instead of failing with an
InvalidInput error. -/
theorem computeInductance_zero_silently_returned :
    (computeInductance 10 2 10 (.single 2)).gmr = 2 ∧
    (computeInductance 10 2 10 (.single 2)).GMD = 2 ∧
    (computeInductance 10 2 10 (.single 2)).L_per_km = 0 ∧
    (computeInductance 10 2 10 (.single 2)).L_total = 0 := by
  have h2 : (2 : ℝ) ≠ 0 := by norm_num
  simp only [computeInductance, GMD, if_neg h2]
  norm_num

/-- C4 (failing input): with conductor height 0 m, single-phase spacing 2 m,
radius 10 mm and length 10 km, the code performs no height validation: it
computes D_eq = √(2² + 0²) = 2 and silently returns a finite positive
capacitance instead of failing with an InvalidInput error. -/
theorem computeCapacitance_height_zero_returns_value :
    (computeCapacitance 10 0 10 (.single 2)).D_eq = 2 ∧
    0 < (computeCapacitance 10 0 10 (.single 2)).C_per_km ∧
    0 < (computeCapacitance 10 0 10 (.single 2)).C_total := by
  have hD : Real.sqrt ((2 : ℝ) ^ 2 + (2 * 0) ^ 2) = 2 := by
    rw [show ((2 : ℝ) ^ 2 + (2 * 0) ^ 2) = 2 ^ 2 by norm_num,
      Real.sqrt_sq (by norm_num : (0 : ℝ) ≤ 2)]
  have hlog : 0 < Real.log (2 / (10 / 1000)) := by
    rw [show (2 : ℝ) / (10 / 1000) = 200 by norm_num]
    exact Real.log_pos (by norm_num)
  have hnum : 0 < 2 * Real.pi * EPSILON_0 := by
    unfold EPSILON_0; positivity
  refine ⟨by simp only [computeCapacitance]; exact hD, ?_, ?_⟩
  · simp only [computeCapacitance, hD]
    exact mul_pos (div_pos hnum hlog) (by norm_num)
  · simp only [computeCapacitance, hD]
    exact mul_pos (div_pos hnum hlog) (by norm_num)

/-- C8: for every single-phase capacitance input with spacing > 0, height > 0,
radius > 0 and D_eq above the radius in metres, the computation uses
D_eq = √(spacing² + (2·height)²), reports GMD = spacing, and returns
2π·8.854·10⁻¹² / ln(D_eq / r) per metre, scaled by 1000 to per-km and by
the line length in metres to total. -/
theorem single_phase_capacitance_formula (radius_mm height_m length_km spacing : ℝ)
    (_hs : 0 < spacing) (_hh : 0 < height_m) (_hr : 0 < radius_mm)
    (_hD : radius_mm / 1000 < Real.sqrt (spacing ^ 2 + (2 * height_m) ^ 2)) :
    (computeCapacitance radius_mm height_m length_km (.single spacing)).GMD = spacing ∧
    (computeCapacitance radius_mm height_m length_km (.single spacing)).D_eq =
      Real.sqrt (spacing ^ 2 + (2 * height_m) ^ 2) ∧
    (computeCapacitance radius_mm height_m length_km (.single spacing)).C_per_km =
      2 * Real.pi * 8.854e-12 /
        Real.log (Real.sqrt (spacing ^ 2 + (2 * height_m) ^ 2) / (radius_mm / 1000))
        * 1000 ∧
    (computeCapacitance radius_mm height_m length_km (.single spacing)).C_total =
      2 * Real.pi * 8.854e-12 /
        Real.log (Real.sqrt (spacing ^ 2 + (2 * height_m) ^ 2) / (radius_mm / 1000))
        * (length_km * 1000) :=
  ⟨rfl, rfl, rfl, rfl⟩

/-- Witness for C8 at radius 10 mm, height 10 m, length 10 km, spacing 2 m. -/
theorem single_phase_capacitance_formula_witness :
    (0 : ℝ) < 2 ∧ (0 : ℝ) < 10 ∧ (0 : ℝ) < 10 ∧
    (10 : ℝ) / 1000 < Real.sqrt (2 ^ 2 + (2 * 10) ^ 2) ∧
    ((computeCapacitance 10 10 10 (.single 2)).GMD = 2 ∧
     (computeCapacitance 10 10 10 (.single 2)).D_eq =
       Real.sqrt (2 ^ 2 + (2 * 10) ^ 2) ∧
     (computeCapacitance 10 10 10 (.single 2)).C_per_km =
       2 * Real.pi * 8.854e-12 /
         Real.log (Real.sqrt (2 ^ 2 + (2 * 10) ^ 2) / (10 / 1000)) * 1000 ∧
     (computeCapacitance 10 10 10 (.single 2)).C_total =
       2 * Real.pi * 8.854e-12 /
         Real.log (Real.sqrt (2 ^ 2 + (2 * 10) ^ 2) / (10 / 1000)) * (10 * 1000)) :=
  ⟨by norm_num, by norm_num, by norm_num,
    by
      rw [show ((2 : ℝ) ^ 2 + (2 * 10) ^ 2) = 404 by norm_num]
      have h1 : Real.sqrt 1 ≤ Real.sqrt 404 :=
        Real.sqrt_le_sqrt (by norm_num)
      rw [Real.sqrt_one] at h1
      linarith,
    single_phase_capacitance_formula 10 10 10 2 (by norm_num) (by norm_num)
      (by norm_num)
      (by
        rw [show ((2 : ℝ) ^ 2 + (2 * 10) ^ 2) = 404 by norm_num]
        have h1 : Real.sqrt 1 ≤ Real.sqrt 404 :=
          Real.sqrt_le_sqrt (by norm_num)
        rw [Real.sqrt_one] at h1
        linarith)⟩

/-- Euclidean distance is symmetric in its endpoints. -/
theorem pairDist_symm (x1 y1 x2 y2 : ℝ) :
    pairDist x1 y1 x2 y2 = pairDist x2 y2 x1 y1 := by
  unfold pairDist
  congr 1
  ring

/-- The three-phase GMD written with the pairwise-distance helper. -/
theorem GMD_mkThree (p q r : ℝ × ℝ) :
    GMD (mkThree p q r) =
      (pairDist p.1 p.2 q.1 q.2 * pairDist q.1 q.2 r.1 r.2 *
        pairDist r.1 r.2 p.1 p.2) ^ ((1 : ℝ) / 3) := rfl

/-- Distinct conductor positions are at a positive Euclidean distance. -/
theorem pairDist_pos {p q : ℝ × ℝ} (h : p ≠ q) :
    0 < pairDist p.1 p.2 q.1 q.2 := by
  unfold pairDist
  apply Real.sqrt_pos.mpr
  have hne : p.1 ≠ q.1 ∨ p.2 ≠ q.2 := by
    by_contra hc
    push_neg at hc
    exact h (Prod.ext hc.1 hc.2)
  rcases hne with h1 | h1
  · exact add_pos_of_pos_of_nonneg
      (pow_two_pos_of_ne_zero (sub_ne_zero.mpr h1)) (sq_nonneg _)
  · exact add_pos_of_nonneg_of_pos (sq_nonneg _)
      (pow_two_pos_of_ne_zero (sub_ne_zero.mpr h1))

/-- C7 (counterexample): for the equilateral triangle (0,0), (1,0),
(1/2, √3/2) — three pairwise-distinct positions whose three pairwise
distances are all 1 — the GMD equals 1 = min = max, so the GMD is NOT
strictly between the minimum and the maximum pairwise distance. -/
theorem gmd_strictly_between_counterexample :
    ((0 : ℝ), (0 : ℝ)) ≠ (1, 0) ∧
    ((1 : ℝ), (0 : ℝ)) ≠ (1 / 2, Real.sqrt 3 / 2) ∧
    ((1 / 2 : ℝ), Real.sqrt 3 / 2) ≠ (0, 0) ∧
    ¬ (min (pairDist 0 0 1 0)
          (min (pairDist 1 0 (1 / 2) (Real.sqrt 3 / 2))
            (pairDist (1 / 2) (Real.sqrt 3 / 2) 0 0)) <
        GMD (mkThree (0, 0) (1, 0) (1 / 2, Real.sqrt 3 / 2)) ∧
       GMD (mkThree (0, 0) (1, 0) (1 / 2, Real.sqrt 3 / 2)) <
        max (pairDist 0 0 1 0)
          (max (pairDist 1 0 (1 / 2) (Real.sqrt 3 / 2))
            (pairDist (1 / 2) (Real.sqrt 3 / 2) 0 0))) := by
  have hsq3 : Real.sqrt 3 ^ 2 = 3 := Real.sq_sqrt (by norm_num)
  have hd1 : pairDist 0 0 1 0 = 1 := by
    unfold pairDist
    rw [show ((0 : ℝ) - 1) ^ 2 + ((0 : ℝ) - 0) ^ 2 = 1 by norm_num, Real.sqrt_one]
  have hd2 : pairDist 1 0 (1 / 2) (Real.sqrt 3 / 2) = 1 := by
    unfold pairDist
    rw [show ((1 : ℝ) - 1 / 2) ^ 2 + (0 - Real.sqrt 3 / 2) ^ 2 =
        1 / 4 + Real.sqrt 3 ^ 2 / 4 by ring, hsq3]
    rw [show (1 : ℝ) / 4 + 3 / 4 = 1 by norm_num, Real.sqrt_one]
  have hd3 : pairDist (1 / 2) (Real.sqrt 3 / 2) 0 0 = 1 := by
    unfold pairDist
    rw [show ((1 : ℝ) / 2 - 0) ^ 2 + (Real.sqrt 3 / 2 - 0) ^ 2 =
        1 / 4 + Real.sqrt 3 ^ 2 / 4 by ring, hsq3]
    rw [show (1 : ℝ) / 4 + 3 / 4 = 1 by norm_num, Real.sqrt_one]
  have hg : GMD (mkThree (0, 0) (1, 0) (1 / 2, Real.sqrt 3 / 2)) = 1 := by
    rw [GMD_mkThree]
    simp only
    rw [hd1, hd2, hd3, one_mul, one_mul, Real.one_rpow]
  refine ⟨?_, ?_, ?_, ?_⟩
  · intro hcontra
    rw [Prod.mk.injEq] at hcontra
    exact absurd hcontra.1 (by norm_num)
  · intro hcontra
    rw [Prod.mk.injEq] at hcontra
    exact absurd hcontra.1 (by norm_num)
  · intro hcontra
    rw [Prod.mk.injEq] at hcontra
    exact absurd hcontra.1 (by norm_num)
  · rw [hd1, hd2, hd3, hg]
    intro hcontra
    exact absurd (hcontra.1.trans hcontra.2) (by norm_num)

/-- C7 (amended): for every three pairwise-distinct conductor positions, the
three-phase GMD = (Dab·Dbc·Dca)^(1/3) lies between the minimum and the
maximum of the three pairwise Euclidean distances inclusively
(min ≤ GMD ≤ max); equality occurs when the three distances coincide. -/
theorem gmd_between_min_and_max (p q r : ℝ × ℝ)
    (hpq : p ≠ q) (hqr : q ≠ r) (hrp : r ≠ p) :
    min (pairDist p.1 p.2 q.1 q.2)
        (min (pairDist q.1 q.2 r.1 r.2) (pairDist r.1 r.2 p.1 p.2)) ≤
      GMD (mkThree p q r) ∧
    GMD (mkThree p q r) ≤
      max (pairDist p.1 p.2 q.1 q.2)
        (max (pairDist q.1 q.2 r.1 r.2) (pairDist r.1 r.2 p.1 p.2)) := by
  have hd1 : 0 < pairDist p.1 p.2 q.1 q.2 := pairDist_pos hpq
  have hd2 : 0 < pairDist q.1 q.2 r.1 r.2 := pairDist_pos hqr
  have hd3 : 0 < pairDist r.1 r.2 p.1 p.2 := pairDist_pos hrp
  set d1 := pairDist p.1 p.2 q.1 q.2 with hdef1
  set d2 := pairDist q.1 q.2 r.1 r.2 with hdef2
  set d3 := pairDist r.1 r.2 p.1 p.2 with hdef3
  rw [GMD_mkThree]
  constructor
  · set m := min d1 (min d2 d3) with hm
    have hmpos : 0 < m := lt_min hd1 (lt_min hd2 hd3)
    have hm1 : m ≤ d1 := min_le_left _ _
    have hm2 : m ≤ d2 := (min_le_right _ _).trans (min_le_left _ _)
    have hm3 : m ≤ d3 := (min_le_right _ _).trans (min_le_right _ _)
    have hcube : m ^ (3 : ℕ) ≤ d1 * d2 * d3 := by
      have h12 : m * m ≤ d1 * d2 := mul_le_mul hm1 hm2 hmpos.le hd1.le
      have h123 : m * m * m ≤ d1 * d2 * d3 :=
        mul_le_mul h12 hm3 hmpos.le (mul_nonneg hd1.le hd2.le)
      calc m ^ (3 : ℕ) = m * m * m := by ring
        _ ≤ d1 * d2 * d3 := h123
    calc m = (m ^ (3 : ℕ)) ^ ((1 : ℝ) / 3) := by
          rw [← Real.rpow_natCast m 3, ← Real.rpow_mul hmpos.le,
            show ((3 : ℕ) : ℝ) * (1 / 3) = 1 by norm_num, Real.rpow_one]
      _ ≤ (d1 * d2 * d3) ^ ((1 : ℝ) / 3) :=
          Real.rpow_le_rpow (by positivity) hcube (by norm_num)
  · set M := max d1 (max d2 d3) with hM
    have hMpos : 0 < M := lt_max_of_lt_left hd1
    have hM1 : d1 ≤ M := le_max_left _ _
    have hM2 : d2 ≤ M := (le_max_left _ _).trans (le_max_right _ _)
    have hM3 : d3 ≤ M := (le_max_right _ _).trans (le_max_right _ _)
    have hcube : d1 * d2 * d3 ≤ M ^ (3 : ℕ) := by
      have h12 : d1 * d2 ≤ M * M := mul_le_mul hM1 hM2 hd2.le hMpos.le
      have h123 : d1 * d2 * d3 ≤ M * M * M :=
        mul_le_mul h12 hM3 hd3.le (mul_nonneg hMpos.le hMpos.le)
      calc d1 * d2 * d3 ≤ M * M * M := h123
        _ = M ^ (3 : ℕ) := by ring
    calc (d1 * d2 * d3) ^ ((1 : ℝ) / 3) ≤ (M ^ (3 : ℕ)) ^ ((1 : ℝ) / 3) :=
          Real.rpow_le_rpow (by positivity) hcube (by norm_num)
      _ = M := by
          rw [← Real.rpow_natCast M 3, ← Real.rpow_mul hMpos.le,
            show ((3 : ℕ) : ℝ) * (1 / 3) = 1 by norm_num, Real.rpow_one]

/-- Witness for the amended C7 at the positions (0,10), (6,10), (12,10). -/
theorem gmd_between_min_and_max_witness :
    ((0 : ℝ), (10 : ℝ)) ≠ (6, 10) ∧ ((6 : ℝ), (10 : ℝ)) ≠ (12, 10) ∧
    ((12 : ℝ), (10 : ℝ)) ≠ (0, 10) ∧
    (min (pairDist 0 10 6 10) (min (pairDist 6 10 12 10) (pairDist 12 10 0 10)) ≤
       GMD (mkThree (0, 10) (6, 10) (12, 10)) ∧
     GMD (mkThree (0, 10) (6, 10) (12, 10)) ≤
       max (pairDist 0 10 6 10) (max (pairDist 6 10 12 10) (pairDist 12 10 0 10))) :=
  ⟨by intro h; rw [Prod.mk.injEq] at h; exact absurd h.1 (by norm_num),
   by intro h; rw [Prod.mk.injEq] at h; exact absurd h.1 (by norm_num),
   by intro h; rw [Prod.mk.injEq] at h; exact absurd h.1 (by norm_num),
   gmd_between_min_and_max (0, 10) (6, 10) (12, 10)
     (by intro h; rw [Prod.mk.injEq] at h; exact absurd h.1 (by norm_num))
     (by intro h; rw [Prod.mk.injEq] at h; exact absurd h.1 (by norm_num))
     (by intro h; rw [Prod.mk.injEq] at h; exact absurd h.1 (by norm_num))⟩

/-- The inductance computation depends on the geometry only through its GMD. -/
theorem computeInductance_congr_GMD (radius_mm user_gmr length_km : ℝ)
    {g g' : LineGeometry} (h : GMD g = GMD g') :
    computeInductance radius_mm user_gmr length_km g =
      computeInductance radius_mm user_gmr length_km g' := by
  simp only [computeInductance, h]

/-- The three-phase GMD is unchanged by swapping the first two positions. -/
theorem GMD_swap12 (p q r : ℝ × ℝ) :
    GMD (mkThree q p r) = GMD (mkThree p q r) := by
  rw [GMD_mkThree, GMD_mkThree]
  congr 1
  rw [pairDist_symm q.1 q.2 p.1 p.2, pairDist_symm p.1 p.2 r.1 r.2,
    pairDist_symm r.1 r.2 q.1 q.2]
  ring

/-- The three-phase GMD is unchanged by swapping the last two positions. -/
theorem GMD_swap23 (p q r : ℝ × ℝ) :
    GMD (mkThree p r q) = GMD (mkThree p q r) := by
  rw [GMD_mkThree, GMD_mkThree]
  congr 1
  rw [pairDist_symm p.1 p.2 r.1 r.2, pairDist_symm r.1 r.2 q.1 q.2,
    pairDist_symm q.1 q.2 p.1 p.2]
  ring

/-- The three-phase GMD is unchanged by swapping the outer two positions. -/
theorem GMD_swap13 (p q r : ℝ × ℝ) :
    GMD (mkThree r q p) = GMD (mkThree p q r) := by
  rw [GMD_mkThree, GMD_mkThree]
  congr 1
  rw [pairDist_symm r.1 r.2 q.1 q.2, pairDist_symm q.1 q.2 p.1 p.2,
    pairDist_symm p.1 p.2 r.1 r.2]
  ring

/-- The three-phase GMD is unchanged by cyclic rotation of the positions. -/
theorem GMD_cycle (p q r : ℝ × ℝ) :
    GMD (mkThree q r p) = GMD (mkThree p q r) := by
  rw [GMD_mkThree, GMD_mkThree]
  congr 1
  ring

/-- The three-phase GMD is unchanged by the reverse cyclic rotation. -/
theorem GMD_cycle' (p q r : ℝ × ℝ) :
    GMD (mkThree r p q) = GMD (mkThree p q r) := by
  rw [GMD_mkThree, GMD_mkThree]
  congr 1
  ring

/-- C9: for every three pairwise-distinct phase positions, the three-phase
GMD — and therefore the inductance result computed from it with fixed
radius, GMR and length — is invariant under every permutation (relabeling)
of the three phase coordinates A, B, C. -/
theorem gmd_inductance_perm_invariant (radius_mm user_gmr length_km : ℝ)
    (p q r : ℝ × ℝ) (_hpq : p ≠ q) (_hqr : q ≠ r) (_hrp : r ≠ p) :
    (GMD (mkThree q p r) = GMD (mkThree p q r) ∧
     GMD (mkThree p r q) = GMD (mkThree p q r) ∧
     GMD (mkThree r q p) = GMD (mkThree p q r) ∧
     GMD (mkThree q r p) = GMD (mkThree p q r) ∧
     GMD (mkThree r p q) = GMD (mkThree p q r)) ∧
    (computeInductance radius_mm user_gmr length_km (mkThree q p r) =
       computeInductance radius_mm user_gmr length_km (mkThree p q r) ∧
     computeInductance radius_mm user_gmr length_km (mkThree p r q) =
       computeInductance radius_mm user_gmr length_km (mkThree p q r) ∧
     computeInductance radius_mm user_gmr length_km (mkThree r q p) =
       computeInductance radius_mm user_gmr length_km (mkThree p q r) ∧
     computeInductance radius_mm user_gmr length_km (mkThree q r p) =
       computeInductance radius_mm user_gmr length_km (mkThree p q r) ∧
     computeInductance radius_mm user_gmr length_km (mkThree r p q) =
       computeInductance radius_mm user_gmr length_km (mkThree p q r)) :=
  ⟨⟨GMD_swap12 p q r, GMD_swap23 p q r, GMD_swap13 p q r,
    GMD_cycle p q r, GMD_cycle' p q r⟩,
   ⟨computeInductance_congr_GMD radius_mm user_gmr length_km (GMD_swap12 p q r),
    computeInductance_congr_GMD radius_mm user_gmr length_km (GMD_swap23 p q r),
    computeInductance_congr_GMD radius_mm user_gmr length_km (GMD_swap13 p q r),
    computeInductance_congr_GMD radius_mm user_gmr length_km (GMD_cycle p q r),
    computeInductance_congr_GMD radius_mm user_gmr length_km (GMD_cycle' p q r)⟩⟩

/-- Witness for C9 at radius 10 mm, GMR auto (0), length 10 km and the
positions (0,10), (6,10), (12,10). -/
theorem gmd_inductance_perm_invariant_witness :
    ((0 : ℝ), (10 : ℝ)) ≠ (6, 10) ∧ ((6 : ℝ), (10 : ℝ)) ≠ (12, 10) ∧
    ((12 : ℝ), (10 : ℝ)) ≠ (0, 10) ∧
    ((GMD (mkThree (6, 10) (0, 10) (12, 10)) =
        GMD (mkThree (0, 10) (6, 10) (12, 10)) ∧
      GMD (mkThree (0, 10) (12, 10) (6, 10)) =
        GMD (mkThree (0, 10) (6, 10) (12, 10)) ∧
      GMD (mkThree (12, 10) (6, 10) (0, 10)) =
        GMD (mkThree (0, 10) (6, 10) (12, 10)) ∧
      GMD (mkThree (6, 10) (12, 10) (0, 10)) =
        GMD (mkThree (0, 10) (6, 10) (12, 10)) ∧
      GMD (mkThree (12, 10) (0, 10) (6, 10)) =
        GMD (mkThree (0, 10) (6, 10) (12, 10))) ∧
     (computeInductance 10 0 10 (mkThree (6, 10) (0, 10) (12, 10)) =
        computeInductance 10 0 10 (mkThree (0, 10) (6, 10) (12, 10)) ∧
      computeInductance 10 0 10 (mkThree (0, 10) (12, 10) (6, 10)) =
        computeInductance 10 0 10 (mkThree (0, 10) (6, 10) (12, 10)) ∧
      computeInductance 10 0 10 (mkThree (12, 10) (6, 10) (0, 10)) =
        computeInductance 10 0 10 (mkThree (0, 10) (6, 10) (12, 10)) ∧
      computeInductance 10 0 10 (mkThree (6, 10) (12, 10) (0, 10)) =
        computeInductance 10 0 10 (mkThree (0, 10) (6, 10) (12, 10)) ∧
      computeInductance 10 0 10 (mkThree (12, 10) (0, 10) (6, 10)) =
        computeInductance 10 0 10 (mkThree (0, 10) (6, 10) (12, 10)))) :=
  ⟨by intro h; rw [Prod.mk.injEq] at h; exact absurd h.1 (by norm_num),
   by intro h; rw [Prod.mk.injEq] at h; exact absurd h.1 (by norm_num),
   by intro h; rw [Prod.mk.injEq] at h; exact absurd h.1 (by norm_num),
   gmd_inductance_perm_invariant 10 0 10 (0, 10) (6, 10) (12, 10)
     (by intro h; rw [Prod.mk.injEq] at h; exact absurd h.1 (by norm_num))
     (by intro h; rw [Prod.mk.injEq] at h; exact absurd h.1 (by norm_num))
     (by intro h; rw [Prod.mk.injEq] at h; exact absurd h.1 (by norm_num))⟩

end RLCToolkit
